import Mathlib

/-!
Verification of the NilAway explanation lattice (`inference` package) and the
configuration package (`config` package), shallowly embedded in Lean 4.

The `inference` part embeds the `ExplainedBool` interface and its eight
implementing structs (`TrueBecauseShallowConstraint`, ..., `FalseBecauseMyopia`)
as one inductive type, with `Val` and the `String()` renderer (called `render`
here) as functions on it.

The `config` part embeds the `Config` struct, the scope predicates
`IsPkgInScope` and `IsFileInScope`, the flag defaults of `newFlagSet`, and the
analyzer `run` function.
-/

/-- Modelled from the spec: the type `PrimitiveFullTrigger` is defined outside
the given sources; only its display representations are used by the renderer
("Producer ... carries a display representation", "Consumer ... carries a
display representation"), so it is modelled as the pair of those two
representation strings. -/
structure PrimitiveFullTrigger where
  ProducerRepr : String
  ConsumerRepr : String
deriving DecidableEq, Repr

/-- The `ExplainedBool` interface together with its eight implementing structs,
as one inductive type.  Each Go struct becomes one constructor; the embedded
`ExplainedTrue` / `ExplainedFalse` markers are reflected by the True/False
constructor names, and each constructor keeps its struct's payload fields. -/
inductive ExplainedBool where
  | TrueBecauseShallowConstraint (ExternalAssertion : PrimitiveFullTrigger)
  | FalseBecauseShallowConstraint (ExternalAssertion : PrimitiveFullTrigger)
  | TrueBecauseDeepConstraint (InternalAssertion : PrimitiveFullTrigger)
      (DeeperExplanation : ExplainedBool)
  | FalseBecauseDeepConstraint (InternalAssertion : PrimitiveFullTrigger)
      (DeeperExplanation : ExplainedBool)
  | TrueBecauseAnnotation
  | FalseBecauseAnnotation
  | TrueBecauseMyopia (PkgName : String)
  | FalseBecauseMyopia (PkgName : String)
deriving DecidableEq, Repr

namespace ExplainedBool

/-- `Val()`: the true-variants embed `ExplainedTrue` (whose `Val` returns
`true`), the false-variants embed `ExplainedFalse` (whose `Val` returns
`false`). -/
def Val : ExplainedBool → Bool
  | TrueBecauseShallowConstraint _ => true
  | FalseBecauseShallowConstraint _ => false
  | TrueBecauseDeepConstraint _ _ => true
  | FalseBecauseDeepConstraint _ _ => false
  | TrueBecauseAnnotation => true
  | FalseBecauseAnnotation => false
  | TrueBecauseMyopia _ => true
  | FalseBecauseMyopia _ => false

/-- The `String()` method of each variant, with `fmt.Sprintf` formatting
rendered as string concatenation. -/
def render : ExplainedBool → String
  | TrueBecauseShallowConstraint t =>
      "NILABLE because it describes the value " ++ t.ConsumerRepr ++
        ", and that value is " ++ t.ProducerRepr ++ ", where it is NILABLE"
  | FalseBecauseShallowConstraint f =>
      "NONNIL because it describes the value " ++ f.ProducerRepr ++
        ", and that value is " ++ f.ConsumerRepr ++ ", where it must be NONNIL"
  | TrueBecauseDeepConstraint t d =>
      "NILABLE because it describes the value " ++ t.ConsumerRepr ++
        ", and that value is " ++ t.ProducerRepr ++ ", where it is " ++ d.render
  | FalseBecauseDeepConstraint f d =>
      "NONNIL because it describes the value " ++ f.ProducerRepr ++
        ", and that value is " ++ f.ConsumerRepr ++ ", where it must be " ++ d.render
  | TrueBecauseAnnotation => "NILABLE because it is annotated as so"
  | FalseBecauseAnnotation => "NONNIL because it is annotated as so"
  | TrueBecauseMyopia t => "NILABLE because myopic annotation inference for package "
      ++ t ++ " decided so"
  | FalseBecauseMyopia f => "NONNIL because myopic annotation inference for package "
      ++ f ++ " decided so"

/-- Whether a variant is one of the two Deep Constraint variants (the only
recursive ones). -/
def isDeep : ExplainedBool → Bool
  | TrueBecauseDeepConstraint _ _ => true
  | FalseBecauseDeepConstraint _ _ => true
  | _ => false

/-- The terminal leaf reached by unwrapping Deep Constraint variants through
their deeper explanation. -/
def leaf : ExplainedBool → ExplainedBool
  | TrueBecauseDeepConstraint _ d => d.leaf
  | FalseBecauseDeepConstraint _ d => d.leaf
  | e => e

end ExplainedBool

/-- The four justification shapes of the spec's Explained Bool data model:
Shallow Constraint, Deep Constraint, Annotation, Myopia. -/
inductive JustificationShape where
  | shallowConstraint
  | deepConstraint
  | annotationMarker
  | myopia
deriving DecidableEq, Repr

/-- The justification shape a variant is tagged with: the comment on the Go
interface groups the eight structs into the `<Val>BecauseShallowConstraint`,
`<Val>BecauseDeepConstraint`, `<Val>BecauseAnnotation` and `<Val>BecauseMyopia`
families. -/
def ExplainedBool.shape : ExplainedBool → JustificationShape
  | TrueBecauseShallowConstraint _ => JustificationShape.shallowConstraint
  | FalseBecauseShallowConstraint _ => JustificationShape.shallowConstraint
  | TrueBecauseDeepConstraint _ _ => JustificationShape.deepConstraint
  | FalseBecauseDeepConstraint _ _ => JustificationShape.deepConstraint
  | TrueBecauseAnnotation => JustificationShape.annotationMarker
  | FalseBecauseAnnotation => JustificationShape.annotationMarker
  | TrueBecauseMyopia _ => JustificationShape.myopia
  | FalseBecauseMyopia _ => JustificationShape.myopia

/-- Go's `strings.HasPrefix s pre`: `pre` is a string prefix of `s`. -/
def stringsHasPrefix (s pre : String) : Bool :=
  pre.data.isPrefixOf s.data

/-- The `Config` struct of the `config` package. -/
structure Config where
  PrettyPrint : Bool
  GroupErrorMessages : Bool
  FuncAnalysisTimeout : Int
  ExperimentalStructInitEnable : Bool
  ExperimentalAnonymousFuncEnable : Bool
  includePkgs : List String
  excludePkgs : List String
  excludeFileDocStrings : List String
deriving DecidableEq, Repr

/-- The include-list loop of `IsPkgInScope`: scan the include list for the
first entry that is a prefix of the package path; on a hit, return `false` if
some exclude entry is a prefix of the path and `true` otherwise; if no include
entry matches, return `false`. -/
def isPkgInScopeLoop (includes excludes : List String) (path : String) : Bool :=
  match includes with
  | [] => false
  | inc :: rest =>
      if stringsHasPrefix path inc then
        !(excludes.any fun exclude => stringsHasPrefix path exclude)
      else
        isPkgInScopeLoop rest excludes path

/-- `Config.IsPkgInScope`: a `*types.Package` argument is embedded as
`Option String` (a nil package is `none`, otherwise `some` of `pkg.Path()`). -/
def Config.IsPkgInScope (c : Config) (pkg : Option String) : Bool :=
  match pkg with
  | none => false
  | some path => isPkgInScopeLoop c.includePkgs c.excludePkgs path

/-- An `*ast.CommentGroup` of a file, embedded as its text together with its
source position (`token.Pos` embedded as `Nat`). -/
structure CommentGroup where
  text : String
  pos : Nat
deriving DecidableEq, Repr

/-- The parts of an `*ast.File` that `IsFileInScope` reads: its comment groups
and the position of the package name identifier (`file.Name.Pos()`). -/
structure File where
  comments : List CommentGroup
  namePos : Nat
deriving DecidableEq, Repr

/-- `needle` occurs as a contiguous sublist of `hay`. -/
def listContainsSub (needle : List Char) : List Char → Bool
  | [] => needle.isEmpty
  | c :: t => needle.isPrefixOf (c :: t) || listContainsSub needle t

/-- Modelled from the spec: `asthelper.DocContains` is defined outside the
given sources; per the spec's `FileInScope(fileDocText) -> bool` and the
`Config` field comment ("doc strings that, if they appear in the file doc
string, will cause the file to be excluded"), it is modelled as substring
containment of the exclude docstring in the comment group's text. -/
def DocContains (cg : CommentGroup) (s : String) : Bool :=
  listContainsSub s.data cg.text.data

/-- The comment loop of `IsFileInScope`: a comment group positioned after the
package name is skipped; otherwise, if any exclude docstring is contained in
it, the file is out of scope. -/
def isFileInScopeLoop (excludes : List String) (namePos : Nat) :
    List CommentGroup → Bool
  | [] => true
  | cg :: rest =>
      if cg.pos > namePos then
        isFileInScopeLoop excludes namePos rest
      else if excludes.any fun exclude => DocContains cg exclude then
        false
      else
        isFileInScopeLoop excludes namePos rest

/-- `Config.IsFileInScope`: fast `true` when the exclude-docstring list is
empty, otherwise scan the file's comment groups. -/
def Config.IsFileInScope (c : Config) (file : File) : Bool :=
  if c.excludeFileDocStrings.length = 0 then
    true
  else
    isFileInScopeLoop c.excludeFileDocStrings file.namePos file.comments

/-- The values held by the analyzer's flag set: one field per flag registered
by `newFlagSet`, carrying the value the driver parsed for it. -/
structure FlagSet where
  prettyPrint : Bool
  groupErrorMessages : Bool
  funcAnalysisTimeout : Int
  includePkgs : String
  excludePkgs : String
  excludeFileDocStrings : String
  experimentalStructInit : Bool
  experimentalAnonymousFunction : Bool
deriving DecidableEq, Repr

/-- `newFlagSet`: the flag set with every flag at its registered default. -/
def newFlagSet : FlagSet where
  prettyPrint := true
  groupErrorMessages := true
  funcAnalysisTimeout := 1
  includePkgs := ""
  excludePkgs := ""
  excludeFileDocStrings := ""
  experimentalStructInit := false
  experimentalAnonymousFunction := false

/-- The `run` function of the config analyzer.  The only part of the analysis
pass it reads is `pass.Analyzer.Flags`, embedded as a `FlagSet`; every
`Flags.Lookup(...).Value.(flag.Getter).Get().(T)` succeeds because `newFlagSet`
registers each flag with exactly that type, so each lookup is the corresponding
`FlagSet` field.  The result pair embeds Go's `(any, error)` return as an
optional `Config` and an optional error message. -/
def run (fs : FlagSet) : Option Config × Option String :=
  let conf : Config :=
    { PrettyPrint := true
      GroupErrorMessages := true
      FuncAnalysisTimeout := 0
      ExperimentalStructInitEnable := false
      ExperimentalAnonymousFuncEnable := false
      includePkgs := [""]
      excludePkgs := []
      excludeFileDocStrings := [] }
  let conf := { conf with PrettyPrint := fs.prettyPrint }
  let conf := { conf with GroupErrorMessages := fs.groupErrorMessages }
  let conf := { conf with FuncAnalysisTimeout := fs.funcAnalysisTimeout }
  let conf := { conf with ExperimentalStructInitEnable := fs.experimentalStructInit }
  let conf := { conf with ExperimentalAnonymousFuncEnable := fs.experimentalAnonymousFunction }
  let conf :=
    if fs.includePkgs ≠ "" then
      { conf with includePkgs := fs.includePkgs.splitOn "," }
    else conf
  let conf :=
    if fs.excludePkgs ≠ "" then
      { conf with excludePkgs := fs.excludePkgs.splitOn "," }
    else conf
  let conf :=
    if fs.excludeFileDocStrings ≠ "" then
      { conf with excludeFileDocStrings := fs.excludeFileDocStrings.splitOn "," }
    else conf
  (some conf, none)

/-- The `Config` that `run` produces when every flag is at its default. -/
def defaultConfig : Config where
  PrettyPrint := true
  GroupErrorMessages := true
  FuncAnalysisTimeout := 1
  ExperimentalStructInitEnable := false
  ExperimentalAnonymousFuncEnable := false
  includePkgs := [""]
  excludePkgs := []
  excludeFileDocStrings := []

/-- The configuration of the spec's scope scenario: include list `["mod/a"]`,
exclude list `["mod/a/internal"]`. -/
def scopeScenarioConfig : Config where
  PrettyPrint := true
  GroupErrorMessages := true
  FuncAnalysisTimeout := 1
  ExperimentalStructInitEnable := false
  ExperimentalAnonymousFuncEnable := false
  includePkgs := ["mod/a"]
  excludePkgs := ["mod/a/internal"]
  excludeFileDocStrings := []

/-- A configuration excluding files whose docstring contains "@generated". -/
def generatedExcludingConfig : Config :=
  { defaultConfig with excludeFileDocStrings := ["@generated"] }

/-- A file whose doc comment (before the package name) contains "@generated". -/
def generatedFile : File where
  comments := [{ text := "Code @generated by tool", pos := 1 }]
  namePos := 5

open ExplainedBool

/-- Every explanation ends in a non-Deep leaf, and its rendering has the
rendering of that leaf as a suffix. -/
theorem render_leaf_suffix (e : ExplainedBool) :
    isDeep (leaf e) = false ∧ ∃ p, render e = p ++ render (leaf e) := by
  induction e with
  | TrueBecauseDeepConstraint t d ih =>
      obtain ⟨hd, p, hp⟩ := ih
      exact ⟨hd, "NILABLE because it describes the value " ++ t.ConsumerRepr ++
        ", and that value is " ++ t.ProducerRepr ++ ", where it is " ++ p, by
          simp only [render, leaf, hp, String.append_assoc]⟩
  | FalseBecauseDeepConstraint f d ih =>
      obtain ⟨hd, p, hp⟩ := ih
      exact ⟨hd, "NONNIL because it describes the value " ++ f.ProducerRepr ++
        ", and that value is " ++ f.ConsumerRepr ++ ", where it must be " ++ p, by
          simp only [render, leaf, hp, String.append_assoc]⟩
  | TrueBecauseShallowConstraint t => exact ⟨rfl, "", by simp [leaf]⟩
  | FalseBecauseShallowConstraint f => exact ⟨rfl, "", by simp [leaf]⟩
  | TrueBecauseAnnotation => exact ⟨rfl, "", by simp [leaf]⟩
  | FalseBecauseAnnotation => exact ⟨rfl, "", by simp [leaf]⟩
  | TrueBecauseMyopia p => exact ⟨rfl, "", by simp [leaf]⟩
  | FalseBecauseMyopia p => exact ⟨rfl, "", by simp [leaf]⟩

/-- A non-Deep explanation renders as a terminal sentence starting with
"NILABLE because " or "NONNIL because " according to its value. -/
theorem render_terminal_form (e : ExplainedBool) (h : isDeep e = false) :
    ∃ s, render e = (if Val e then "NILABLE because " else "NONNIL because ") ++ s := by
  cases e with
  | TrueBecauseDeepConstraint t d => exact absurd h (by simp [isDeep])
  | FalseBecauseDeepConstraint f d => exact absurd h (by simp [isDeep])
  | TrueBecauseShallowConstraint t =>
      exact ⟨"it describes the value " ++ t.ConsumerRepr ++
        ", and that value is " ++ t.ProducerRepr ++ ", where it is NILABLE", by
          simp only [render, Val, if_pos, String.append_assoc]; rfl⟩
  | FalseBecauseShallowConstraint f =>
      exact ⟨"it describes the value " ++ f.ProducerRepr ++
        ", and that value is " ++ f.ConsumerRepr ++ ", where it must be NONNIL", by
          simp only [render, Val, if_neg, String.append_assoc]; rfl⟩
  | TrueBecauseAnnotation => exact ⟨"it is annotated as so", by rfl⟩
  | FalseBecauseAnnotation => exact ⟨"it is annotated as so", by rfl⟩
  | TrueBecauseMyopia p =>
      exact ⟨"myopic annotation inference for package " ++ p ++ " decided so", by
        simp only [render, Val, if_pos, String.append_assoc]; rfl⟩
  | FalseBecauseMyopia p =>
      exact ⟨"myopic annotation inference for package " ++ p ++ " decided so", by
        simp only [render, Val, if_neg, String.append_assoc]; rfl⟩

/-- C1: Every Explained Bool carries a fixed boolean value determined by its
variant: `Val` returns `true` for the four true-variants and `false` for the
four false-variants, independently of the payload, and each value is tagged
with exactly one of the four justification shapes. -/
theorem c1_val_determined_by_variant :
    (∀ t, Val ( TrueBecauseShallowConstraint t) = true) ∧
    (∀ t d, Val ( TrueBecauseDeepConstraint t d) = true) ∧
    ( Val TrueBecauseAnnotation = true) ∧
    (∀ p, Val ( TrueBecauseMyopia p) = true) ∧
    (∀ f, Val ( FalseBecauseShallowConstraint f) = false) ∧
    (∀ f d, Val ( FalseBecauseDeepConstraint f d) = false) ∧
    ( Val FalseBecauseAnnotation = false) ∧
    (∀ p, Val ( FalseBecauseMyopia p) = false) ∧
    (∀ e : ExplainedBool, ∃! s : JustificationShape, e.shape = s) :=
  ⟨fun _ => rfl, fun _ _ => rfl, rfl, fun _ => rfl, fun _ => rfl, fun _ _ => rfl,
    rfl, fun _ => rfl, fun e => ⟨e.shape, rfl, fun _ h => h.symm⟩⟩

/-- C2: Rendering is a recursive causal sentence: each Deep Constraint's
rendering has the full rendering of its deeper explanation as a suffix; every
explanation's rendering ends with the rendering of its terminal (non-Deep)
leaf; and non-Deep variants render as terminal sentences of the form
"NILABLE/NONNIL because ...". -/
theorem c2_render_recursive_causal :
    (∀ t d, ∃ p, render ( TrueBecauseDeepConstraint t d) = p ++ render d) ∧
    (∀ f d, ∃ p, render ( FalseBecauseDeepConstraint f d) = p ++ render d) ∧
    (∀ e : ExplainedBool, isDeep (leaf e) = false ∧
      ∃ p, render e = p ++ render (leaf e)) ∧
    (∀ e : ExplainedBool, isDeep e = false →
      ∃ s, render e = (if Val e then "NILABLE because " else "NONNIL because ") ++ s) := by
  refine ⟨fun t d => ⟨"NILABLE because it describes the value " ++ t.ConsumerRepr ++
      ", and that value is " ++ t.ProducerRepr ++ ", where it is ", rfl⟩,
    fun f d => ⟨"NONNIL because it describes the value " ++ f.ProducerRepr ++
      ", and that value is " ++ f.ConsumerRepr ++ ", where it must be ", rfl⟩,
    render_leaf_suffix, render_terminal_form⟩

/-- C2 witness: the terminal-form conjunct applied at the true Annotation
variant. -/
theorem c2_witness :
    ExplainedBool.isDeep ExplainedBool.TrueBecauseAnnotation = false ∧
    ∃ s, ExplainedBool.render ExplainedBool.TrueBecauseAnnotation =
      (if ExplainedBool.Val ExplainedBool.TrueBecauseAnnotation then
        "NILABLE because " else "NONNIL because ") ++ s :=
  ⟨rfl, c2_render_recursive_causal.2.2.2 ExplainedBool.TrueBecauseAnnotation rfl⟩

/-- C4: Rendering is deterministic: `render` is a function of the variant and
payload alone, so structurally identical Explained Bools render identically. -/
theorem c4_render_deterministic (e₁ e₂ : ExplainedBool) (h : e₁ = e₂) :
    render e₁ = render e₂ := by rw [h]

/-- C4 witness: determinism applied at a concrete Myopia value. -/
theorem c4_witness :
    ExplainedBool.render ( ExplainedBool.TrueBecauseMyopia "mypkg") =
      ExplainedBool.render ( ExplainedBool.TrueBecauseMyopia "mypkg") :=
  c4_render_deterministic ( ExplainedBool.TrueBecauseMyopia "mypkg")
    ( ExplainedBool.TrueBecauseMyopia "mypkg") rfl

/-- C7: Both Myopia variants carry the originating package name in their
payload and their rendered text contains that package name. -/
theorem c7_myopia_package_scoped (pkg : String) :
    render ( TrueBecauseMyopia pkg) =
      "NILABLE because myopic annotation inference for package " ++ pkg ++
        " decided so" ∧
    render ( FalseBecauseMyopia pkg) =
      "NONNIL because myopic annotation inference for package " ++ pkg ++
        " decided so" ∧
    (∃ a b, render ( TrueBecauseMyopia pkg) = a ++ (pkg ++ b)) ∧
    (∃ a b, render ( FalseBecauseMyopia pkg) = a ++ (pkg ++ b)) :=
  ⟨rfl, rfl,
    ⟨"NILABLE because myopic annotation inference for package ", " decided so",
      by simp only [render, String.append_assoc]⟩,
    ⟨"NONNIL because myopic annotation inference for package ", " decided so",
      by simp only [render, String.append_assoc]⟩⟩

/-- C7 witness: the theorem applied at a concrete package name. -/
theorem c7_witness :
    ExplainedBool.render ( ExplainedBool.TrueBecauseMyopia "mod/a") =
      "NILABLE because myopic annotation inference for package " ++ "mod/a" ++
        " decided so" :=
  (c7_myopia_package_scoped "mod/a").1

/-- The first-match include loop agrees with the any-include-and-no-exclude
boolean formula. -/
theorem isPkgInScopeLoop_eq_any (includes excludes : List String) (path : String) :
    isPkgInScopeLoop includes excludes path =
      ((includes.any fun inc => stringsHasPrefix path inc) &&
        !(excludes.any fun exc => stringsHasPrefix path exc)) := by
  induction includes with
  | nil => simp [isPkgInScopeLoop]
  | cons inc rest ih =>
      by_cases h : stringsHasPrefix path inc = true
      · simp [isPkgInScopeLoop, h]
      · simp only [Bool.not_eq_true] at h
        simp [isPkgInScopeLoop, h, ih]

/-- C3: For every non-nil package, `IsPkgInScope` is true iff some include
entry is a string prefix of the path and no exclude entry is; on the spec's
scenario (include `["mod/a"]`, exclude `["mod/a/internal"]`), `"mod/a/pkg"` is
in scope while `"mod/a/internal/x"` and `"mod/b"` are not. -/
theorem c3_pkg_scope_iff :
    (∀ (c : Config) (path : String),
      c.IsPkgInScope (some path) = true ↔
        ((∃ inc ∈ c.includePkgs, stringsHasPrefix path inc = true) ∧
          ∀ exc ∈ c.excludePkgs, stringsHasPrefix path exc = false)) ∧
    scopeScenarioConfig.IsPkgInScope (some "mod/a/pkg") = true ∧
    scopeScenarioConfig.IsPkgInScope (some "mod/a/internal/x") = false ∧
    scopeScenarioConfig.IsPkgInScope (some "mod/b") = false := by
  refine ⟨fun c path => ?_, by decide, by decide, by decide⟩
  simp [Config.IsPkgInScope, isPkgInScopeLoop_eq_any, List.any_eq_true,
    Bool.not_eq_true]

/-- The comment loop of `IsFileInScope` returns `false` exactly when some
comment group at or before the package name contains some exclude docstring. -/
theorem isFileInScopeLoop_eq_false_iff (excludes : List String) (namePos : Nat)
    (comments : List CommentGroup) :
    isFileInScopeLoop excludes namePos comments = false ↔
      ∃ cg ∈ comments, cg.pos ≤ namePos ∧
        ∃ e ∈ excludes, DocContains cg e = true := by
  induction comments with
  | nil => simp [isFileInScopeLoop]
  | cons cg rest ih =>
      by_cases hpos : cg.pos > namePos
      · rw [isFileInScopeLoop, if_pos hpos, ih]
        constructor
        · rintro ⟨g, hg, h⟩
          exact ⟨g, List.mem_cons_of_mem _ hg, h⟩
        · rintro ⟨g, hg, hle, h⟩
          rcases List.mem_cons.mp hg with rfl | hg
          · exact absurd hpos (not_lt.mpr hle)
          · exact ⟨g, hg, hle, h⟩
      · rw [isFileInScopeLoop, if_neg hpos]
        by_cases hmatch : (excludes.any fun exclude => DocContains cg exclude) = true
        · rw [if_pos hmatch]
          obtain ⟨e, he, hd⟩ := List.any_eq_true.mp hmatch
          exact iff_of_true rfl ⟨cg, List.mem_cons_self cg rest,
            le_of_not_lt hpos, e, he, hd⟩
        · rw [if_neg hmatch, ih]
          simp only [Bool.not_eq_true] at hmatch
          constructor
          · rintro ⟨g, hg, h⟩
            exact ⟨g, List.mem_cons_of_mem _ hg, h⟩
          · rintro ⟨g, hg, hle, e, he, hd⟩
            rcases List.mem_cons.mp hg with rfl | hg
            · have := List.any_eq_false.mp hmatch e he
              exact absurd hd (by simp [this])
            · exact ⟨g, hg, hle, e, he, hd⟩

/-- C5: `IsFileInScope` is `true` whenever the exclude-docstring list is
empty; otherwise it is `false` exactly when some configured exclude docstring
is contained in a comment group of the file that is not positioned after the
package name.  It is a boolean predicate, never an error. -/
theorem c5_file_scope :
    (∀ (c : Config) (f : File), c.excludeFileDocStrings = [] →
      c.IsFileInScope f = true) ∧
    (∀ (c : Config) (f : File), c.excludeFileDocStrings ≠ [] →
      (c.IsFileInScope f = false ↔
        ∃ cg ∈ f.comments, ¬cg.pos > f.namePos ∧
          ∃ e ∈ c.excludeFileDocStrings, DocContains cg e = true)) := by
  constructor
  · intro c f h
    simp [Config.IsFileInScope, h]
  · intro c f h
    rw [Config.IsFileInScope, if_neg (by simpa using h)]
    simpa using isFileInScopeLoop_eq_false_iff c.excludeFileDocStrings
      f.namePos f.comments

/-- C5 witness: a config with an empty exclude list accepts the
`"@generated"` file, while a config excluding `"@generated"` rejects it. -/
theorem c5_witness :
    defaultConfig.IsFileInScope generatedFile = true ∧
    generatedExcludingConfig.IsFileInScope generatedFile = false :=
  ⟨c5_file_scope.1 defaultConfig generatedFile rfl,
    (c5_file_scope.2 generatedExcludingConfig generatedFile (by decide)).mpr
      ⟨{ text := "Code @generated by tool", pos := 1 }, by decide, by decide,
        "@generated", by decide, by decide⟩⟩

/-- C6: The configuration component's knobs: with every flag at its default,
`run` yields the default `Config` (pretty-print on, grouping on, one-second
function timeout, both experimental flags off); and for every flag set, the
returned `Config`'s knob fields equal the corresponding flag values. -/
theorem c6_primitive_knobs :
    (run newFlagSet).1 = some defaultConfig ∧
    ∀ (fs : FlagSet) (conf : Config), (run fs).1 = some conf →
      conf.PrettyPrint = fs.prettyPrint ∧
      conf.GroupErrorMessages = fs.groupErrorMessages ∧
      conf.FuncAnalysisTimeout = fs.funcAnalysisTimeout ∧
      conf.ExperimentalStructInitEnable = fs.experimentalStructInit ∧
      conf.ExperimentalAnonymousFuncEnable = fs.experimentalAnonymousFunction := by
  refine ⟨by decide, fun fs conf h => ?_⟩
  simp only [run] at h
  split_ifs at h <;> (injection h with h; subst h; exact ⟨rfl, rfl, rfl, rfl, rfl⟩)

/-- C6 witness: the field-correspondence conjunct applied at the default flag
set and the default configuration. -/
theorem c6_witness :
    defaultConfig.PrettyPrint = newFlagSet.prettyPrint ∧
    defaultConfig.GroupErrorMessages = newFlagSet.groupErrorMessages ∧
    defaultConfig.FuncAnalysisTimeout = newFlagSet.funcAnalysisTimeout ∧
    defaultConfig.ExperimentalStructInitEnable = newFlagSet.experimentalStructInit ∧
    defaultConfig.ExperimentalAnonymousFuncEnable =
      newFlagSet.experimentalAnonymousFunction :=
  c6_primitive_knobs.2 newFlagSet defaultConfig c6_primitive_knobs.1

/-- C8: With no include flag provided, the default `Config` has include list
`[""]` and empty exclude list, and `IsPkgInScope` is true on every non-nil
package. -/
theorem c8_default_all_pkgs_in_scope :
    ∀ (path : String) (conf : Config), (run newFlagSet).1 = some conf →
      conf.includePkgs = [""] ∧ conf.excludePkgs = [] ∧
        conf.IsPkgInScope (some path) = true := by
  intro path conf h
  have hconf : conf = defaultConfig := by
    have : (run newFlagSet).1 = some defaultConfig := by decide
    rw [this] at h
    exact (Option.some_injective _ h).symm
  subst hconf
  refine ⟨rfl, rfl, ?_⟩
  simp [Config.IsPkgInScope, defaultConfig, isPkgInScopeLoop, stringsHasPrefix,
    List.isPrefixOf]

/-- C8 witness: the theorem applied at a concrete path. -/
theorem c8_witness :
    defaultConfig.includePkgs = [""] ∧ defaultConfig.excludePkgs = [] ∧
      defaultConfig.IsPkgInScope (some "mod/b") = true :=
  c8_default_all_pkgs_in_scope "mod/b" defaultConfig (by decide)

/-- C9: `IsPkgInScope` on a nil package returns `false` for every `Config`:
the nil branch is taken before any path inspection. -/
theorem c9_nil_pkg_not_in_scope (c : Config) : c.IsPkgInScope none = false := rfl

/-- C10: The config analyzer's `run` never fails: for every flag set it
returns a present (non-nil) `Config` and no error. -/
theorem c10_run_never_fails (fs : FlagSet) :
    (run fs).1.isSome = true ∧ (run fs).2 = none := ⟨rfl, rfl⟩
